import Mathlib

/-!
# Verification of the 11labs-toolcenter HTTP service (src/server.js)

A shallow embedding of the request handlers, validation, normalization and
phone-canonicalization code of `src/server.js`, together with theorems
settling the frozen claims about the natural-language specification.

Conventions of the embedding:
* JSON/JS values are modelled by `JsValue` (strings, booleans, integer
  numbers, null, arrays and an opaque store-timestamp value).  Fractional JS
  numbers never occur in the code paths under study and are not modelled.
* A JS object (request body, stored document) is modelled by `Body`, an
  association list with first-match lookup; JS objects cannot hold duplicate
  keys, so `Body.get`/`Body.setField` agree with JS property access and
  assignment on the bodies that actually arise.
* JS `String.prototype.trim` is modelled over the ASCII whitespace
  characters (`jsTrim`); no claim depends on exotic Unicode whitespace.
* Firestore server-timestamp sentinel fields (`submittedAt`, `updatedAt`)
  carry no information relevant to any claim and are omitted from the
  modelled payload.
-/

namespace ToolCenter

/-- A JSON/JS runtime value, as far as the service manipulates them.
`vtime` models a Firestore Timestamp object carrying its ISO rendering. -/
inductive JsValue where
  | vstr (s : String)
  | vbool (b : Bool)
  | vint (n : Int)
  | vnull
  | varr (xs : List String)
  | vtime (iso : String)
  deriving Repr, DecidableEq

/-- JS truthiness of a modelled value (`""`, `false`, `0`, `null` are falsy;
objects, hence arrays and Timestamps, are always truthy). -/
def truthy : JsValue → Bool
  | .vstr s => s ≠ ""
  | .vbool b => b
  | .vint n => n ≠ 0
  | .vnull => false
  | .varr _ => true
  | .vtime _ => true

/-- JS `String(v)` coercion for the modelled values (used by `toE164`'s
`String(raw)`; arrays stringify by joining elements with commas). -/
def jsToString : JsValue → String
  | .vstr s => s
  | .vbool b => if b then "true" else "false"
  | .vint n => toString n
  | .vnull => "null"
  | .varr xs => String.intercalate "," xs
  | .vtime iso => iso

/-- ASCII whitespace recognised by JS `trim` (the Unicode space characters
JS additionally trims never occur in the inputs under study). -/
def isJsSpace (c : Char) : Bool :=
  c = ' ' || c = '\t' || c = '\n' || c = '\r' || c = '\x0b' || c = '\x0c'

/-- JS `s.trim()` on the character list: drop whitespace at both ends. -/
def jsTrim (l : List Char) : List Char :=
  ((l.dropWhile isJsSpace).reverse.dropWhile isJsSpace).reverse

/-- Characters kept by the regex `[^\d+]` replacement in `toE164`:
digits and every plus sign. -/
def isDigitOrPlus (c : Char) : Bool :=
  c.isDigit || c = '+'

/-- `toE164` from `src/server.js` lines 149–157, on string inputs
(`none` models an absent/undefined argument, `some ""` an empty string;
both are falsy, so both hit the `if (!raw) return null` guard):

```js
function toE164(raw) {
  if (!raw) return null;
  const s = String(raw).trim();
  if (s.startsWith("+")) return s.replace(/[^\d+]/g, "");
  const digits = s.replace(/\D/g, "");
  if (digits.length === 11 && digits.startsWith("1")) return `+${digits}`;
  if (digits.length === 10) return `+1${digits}`;
  return digits ? `+${digits}` : null;
}
``` -/
def toE164 (raw : Option String) : Option String :=
  match raw with
  | none => none
  | some r =>
    if r = "" then none else
    let s := jsTrim r.toList
    if s.head? = some '+' then some (String.mk (s.filter isDigitOrPlus)) else
    let digits := s.filter Char.isDigit
    if digits.length = 11 ∧ digits.head? = some '1' then
      some (String.mk ('+' :: digits)) else
    if digits.length = 10 then some (String.mk ('+' :: '1' :: digits)) else
    if digits = [] then none else some (String.mk ('+' :: digits))

/-- `toE164` applied to an arbitrary JS value: the `!raw` guard tests the
falsiness of the original value, then `String(raw)` coerces. -/
def toE164v (v : JsValue) : Option String :=
  if truthy v then toE164 (some (jsToString v)) else none

example : toE164 (some "415-272-8956") = some "+14152728956" := by decide
example : toE164 (some "14152728956") = some "+14152728956" := by decide
example : toE164 (some "+1 (415) 272-8956") = some "+14152728956" := by decide
example : toE164 (some "+") = some "+" := by decide
example : toE164 (some "123456") = some "+123456" := by decide
example : toE164 (some "abc") = none := by decide
example : toE164 (some "") = none := by decide
example : toE164 (some "+1+2") = some "+1+2" := by decide

/-! ## JS objects: request bodies and stored documents -/

/-- A JS object (request body / Firestore document), as an association
list.  JS objects hold each key at most once; lookup takes the first match
so the model agrees with JS property access on such objects. -/
def Body : Type := List (String × JsValue)

instance : DecidableEq Body :=
  inferInstanceAs (DecidableEq (List (String × JsValue)))

instance : Repr Body :=
  inferInstanceAs (Repr (List (String × JsValue)))

/-- Property access `data[key]`: `none` models `undefined`. -/
def Body.get : Body → String → Option JsValue
  | [], _ => none
  | (k, v) :: rest, key => if k = key then some v else Body.get rest key

/-- Property assignment `data[key] = v` on a key already present. -/
def Body.setField (b : Body) (key : String) (v : JsValue) : Body :=
  b.map (fun kv => if kv.1 = key then (kv.1, v) else kv)

/-! ## validatePendingContact (src/server.js lines 72–119) -/

/-- The `requiredFields` array of `validatePendingContact`. -/
def requiredFields : List String :=
  ["phone", "company", "name", "email", "location", "constructionType",
   "jobTitle", "companySize", "painPoints", "currentTools", "featureInterest",
   "participateFeedback", "contactMethod", "isRepeat", "lastContactDate",
   "createdDate", "callCount", "licenseNumber", "businessType", "languageUsed"]

/-- The required-field loop: one `Missing required field: <f>` message per
field absent from the body, in `requiredFields` order. -/
def missingFieldErrors (data : Body) : List String :=
  requiredFields.filterMap fun f =>
    if (data.get f).isNone then some ("Missing required field: " ++ f) else none

/-- `data.email && !data.email.includes('@')`.  `includes` is modelled on
string values (the only ones the claims exercise); a truthy non-string
email would make the real code throw a TypeError, a path no claim visits. -/
def emailErrors (data : Body) : List String :=
  match data.get "email" with
  | some (.vstr s) =>
    if s ≠ "" ∧ ¬ s.toList.contains '@' then ["email must be a valid email address"]
    else []
  | _ => []

/-- JS `Array.prototype.includes` over a string enum list uses `===`, so a
non-string value is never a member. -/
def isEnumMember (v : JsValue) (enumVals : List String) : Bool :=
  match v with
  | .vstr s => enumVals.contains s
  | _ => false

/-- `data.contactMethod && !['text','phone','email'].includes(...)`. -/
def contactMethodErrors (data : Body) : List String :=
  match data.get "contactMethod" with
  | none => []
  | some v =>
    if truthy v ∧ ¬ isEnumMember v ["text", "phone", "email"] then
      ["contactMethod must be one of: text, phone, email"]
    else []

/-- `data.businessType && !['LLC','INC.','Sole Proprietorship'].includes(...)`. -/
def businessTypeErrors (data : Body) : List String :=
  match data.get "businessType" with
  | none => []
  | some v =>
    if truthy v ∧ ¬ isEnumMember v ["LLC", "INC.", "Sole Proprietorship"] then
      ["businessType must be one of: LLC, INC., Sole Proprietorship"]
    else []

/-- `data.isRepeat !== undefined && typeof data.isRepeat !== 'boolean'`. -/
def isRepeatErrors (data : Body) : List String :=
  match data.get "isRepeat" with
  | none => []
  | some (.vbool _) => []
  | some _ => ["isRepeat must be a boolean"]

/-- `data.callCount !== undefined && (!Number.isInteger(..) || .. < 0)`:
of the modelled values only `vint n` passes `Number.isInteger`. -/
def callCountErrors (data : Body) : List String :=
  match data.get "callCount" with
  | none => []
  | some (.vint n) => if n < 0 then ["callCount must be a non-negative integer"] else []
  | some _ => ["callCount must be a non-negative integer"]

/-- `data.participateFeedback !== undefined && typeof .. !== 'boolean'`. -/
def participateFeedbackErrors (data : Body) : List String :=
  match data.get "participateFeedback" with
  | none => []
  | some (.vbool _) => []
  | some _ => ["participateFeedback must be a boolean"]

/-- JS `Array.isArray`. -/
def isJsArray : JsValue → Bool
  | .varr _ => true
  | _ => false

/-- `data.featureInterest && !Array.isArray(data.featureInterest)`. -/
def featureInterestErrors (data : Body) : List String :=
  match data.get "featureInterest" with
  | none => []
  | some v =>
    if truthy v ∧ ¬ isJsArray v then ["featureInterest must be an array"]
    else []

/-- `validatePendingContact` (lines 72–119): the `errors` array in the
order the source pushes messages. -/
def validatePendingContact (data : Body) : List String :=
  missingFieldErrors data ++ emailErrors data ++ contactMethodErrors data ++
  businessTypeErrors data ++ isRepeatErrors data ++ callCountErrors data ++
  participateFeedbackErrors data ++ featureInterestErrors data

/-! ## normalizePendingContact (src/server.js lines 122–146) -/

/-- Trim a string value; leave every other value unchanged (the loop body
`if (typeof value === 'string') normalized[key] = value.trim()`). -/
def normStr : JsValue → JsValue
  | .vstr s => .vstr (String.mk (jsTrim s.toList))
  | v => v

/-- ASCII `toLowerCase` (the email inputs under study are ASCII). -/
def jsToLower (s : String) : String :=
  String.mk (s.toList.map Char.toLower)

/-- `if (normalized.phone) { const e164 = toE164(normalized.phone);
if (e164) normalized.phone = e164; }` -/
def normalizePhoneStep (b : Body) : Body :=
  match b.get "phone" with
  | some v =>
    if truthy v then
      match toE164v v with
      | some e => b.setField "phone" (.vstr e)
      | none => b
    else b
  | none => b

/-- `if (normalized.email) normalized.email = normalized.email.toLowerCase()`
(modelled on string values; a truthy non-string would throw in JS). -/
def normalizeEmailStep (b : Body) : Body :=
  match b.get "email" with
  | some (.vstr s) =>
    if s ≠ "" then b.setField "email" (.vstr (jsToLower s)) else b
  | _ => b

/-- `normalizePendingContact`: trim all string fields, canonicalize the
phone, lower-case the email. -/
def normalizePendingContact (data : Body) : Body :=
  normalizeEmailStep (normalizePhoneStep (data.map fun kv => (kv.1, normStr kv.2)))

/-! ## The pending-contacts upsert handler (src/server.js lines 369–490) -/

/-- The document written by the upsert handler, with the exact field list of
the `payload` object (lines 402–432).  The Firestore server-timestamp
sentinels `submittedAt`/`updatedAt` are opaque and omitted. -/
structure Payload where
  phone : JsValue
  company : JsValue
  name : JsValue
  email : JsValue
  location : JsValue
  constructionType : JsValue
  jobTitle : JsValue
  companySize : JsValue
  painPoints : JsValue
  currentTools : JsValue
  featureInterest : JsValue
  participateFeedback : JsValue
  contactMethod : JsValue
  isRepeat : JsValue
  lastContactDate : JsValue
  createdDate : JsValue
  callCount : JsValue
  licenseNumber : JsValue
  businessType : JsValue
  languageUsed : JsValue
  status : String
  submittedBy : String
  deriving Repr, DecidableEq

/-- The `payload` object construction (lines 402–432), before the
repeat-merge branch.  Validation guarantees every read field is present, so
the `undefined`-to-null default is never exercised on accepted requests. -/
def mkPayload (e164 : String) (nd : Body) : Payload where
  phone := .vstr e164
  company := (nd.get "company").getD .vnull
  name := (nd.get "name").getD .vnull
  email := (nd.get "email").getD .vnull
  location := (nd.get "location").getD .vnull
  constructionType := (nd.get "constructionType").getD .vnull
  jobTitle := (nd.get "jobTitle").getD .vnull
  companySize := (nd.get "companySize").getD .vnull
  painPoints := (nd.get "painPoints").getD .vnull
  currentTools := (nd.get "currentTools").getD .vnull
  featureInterest := (nd.get "featureInterest").getD .vnull
  participateFeedback := (nd.get "participateFeedback").getD .vnull
  contactMethod := (nd.get "contactMethod").getD .vnull
  isRepeat := (nd.get "isRepeat").getD .vnull
  lastContactDate := (nd.get "lastContactDate").getD .vnull
  createdDate := (nd.get "createdDate").getD .vnull
  callCount := (nd.get "callCount").getD .vnull
  licenseNumber := (nd.get "licenseNumber").getD .vnull
  businessType := (nd.get "businessType").getD .vnull
  languageUsed := (nd.get "languageUsed").getD .vnull
  status := "pending"
  submittedBy := "sms-intake"

/-- The `pending_contacts` collection: canonical phone key to document. -/
def Store : Type := String → Option Payload

/-- The empty collection. -/
def emptyStore : Store := fun _ => none

/-- `docRef.set(payload)`: full replace of the document at a key. -/
def setStore (store : Store) (key : String) (p : Payload) : Store :=
  fun k => if k = key then some p else store k

/-- One storage interaction of a handler run. -/
inductive StorageOp where
  | read (key : String)
  | write (key : String)
  deriving Repr, DecidableEq

/-- The upsert handler's HTTP outcome. -/
inductive UpsertResponse where
  | unauthorized
  | validationFailed (details : List String)
  | invalidPhone
  | ok (id : String) (isUpdate : Bool) (callCount : JsValue)
  deriving Repr, DecidableEq

/-- JS `a || b` on a modelled value. -/
def jsOr (v d : JsValue) : JsValue :=
  if truthy v then v else d

/-- JS `x + 1` as the upsert applies it to `existingData.callCount || 0`.
Only integer stored counts are modelled (the only counts this service ever
writes); the theorems about the merge restrict to integer-or-null stored
counts, so no claim rests on the `vnull` fallback of this function. -/
def jsNumPlusOne : JsValue → JsValue
  | .vint n => .vint (n + 1)
  | _ => .vnull

/-- `toE164(normalized.phone)` as the handler computes it (line 392):
an absent field is `undefined`, which `toE164`'s `!raw` guard rejects. -/
def handlerE164 (normalized : Body) : Option String :=
  match normalized.get "phone" with
  | none => none
  | some v => toE164v v

/-- `app.post("/pending-contacts/upsert")` (lines 369–490): auth gate,
validation, normalization, phone canonicalization, read-merge-write.
`authOk` abstracts `passesWriteAuth(req)`; `now` is the ISO rendering of
`new Date()` at the handling instant.  Returns the HTTP outcome, the
resulting collection state and the storage operations performed. -/
def pendingUpsert (authOk : Bool) (body : Body) (store : Store) (now : String) :
    UpsertResponse × Store × List StorageOp :=
  if authOk = false then (.unauthorized, store, []) else
  if validatePendingContact body = [] then
    match handlerE164 (normalizePendingContact body) with
    | none => (.invalidPhone, store, [])
    | some e164 =>
      let payload := mkPayload e164 (normalizePendingContact body)
      match store e164 with
      | some existingData =>
        let merged := { payload with
          createdDate := existingData.createdDate,
          callCount := jsNumPlusOne (jsOr existingData.callCount (.vint 0)),
          isRepeat := .vbool true,
          lastContactDate := .vstr now }
        (.ok e164 true merged.callCount, setStore store e164 merged,
         [.read e164, .write e164])
      | none =>
        (.ok e164 false payload.callCount, setStore store e164 payload,
         [.read e164, .write e164])
  else (.validationFailed (validatePendingContact body), store, [])

/-- A fully valid request body (used as concrete input by witnesses). -/
def exampleBody : Body :=
  [("phone", .vstr "415-272-8956"), ("company", .vstr "Acme Builders"),
   ("name", .vstr "Jo"), ("email", .vstr "jo@acme.com"),
   ("location", .vstr "SF"), ("constructionType", .vstr "residential"),
   ("jobTitle", .vstr "PM"), ("companySize", .vstr "10"),
   ("painPoints", .vstr "none"), ("currentTools", .vstr "excel"),
   ("featureInterest", .varr ["scheduling"]), ("participateFeedback", .vbool true),
   ("contactMethod", .vstr "phone"), ("isRepeat", .vbool false),
   ("lastContactDate", .vstr "2025-01-01"), ("createdDate", .vstr "2025-01-01"),
   ("callCount", .vint 0), ("licenseNumber", .vstr "123456"),
   ("businessType", .vstr "LLC"), ("languageUsed", .vstr "en")]

example : validatePendingContact exampleBody = [] := by decide
example : handlerE164 (normalizePendingContact exampleBody) = some "+14152728956" := by
  decide

/-! ## Authentication (src/server.js lines 12–57, 158, 196–200, 349–351) -/

/-- The request headers the auth checks read.  `none` models an absent
header (`req.get` returns `undefined`). -/
structure Request where
  authorization : Option String
  xAuthToken : Option String
  deriving Repr, DecidableEq

/-- The environment variables the auth code reads; `""` models an unset
variable (unset and empty are indistinguishable through `||`). -/
structure Env where
  CALLER_REGISTRY_TOKEN : String
  CALLER_INIT_TOKEN_V2 : String
  READ_SECRET : String
  INTAKE_SECRET : String
  INTAKE_WRITE_TOKEN_VAR : String
  deriving Repr, DecidableEq

/-- `s.startsWith(pre)`. -/
def strStartsWith (s pre : String) : Bool :=
  pre.toList.isPrefixOf s.toList

/-- `s.slice(n)` for a non-negative index. -/
def strDrop (s : String) (n : Nat) : String :=
  String.mk (s.toList.drop n)

/-- `expectedTokenFromEnv` (lines 20–28): first truthy candidate in the
fixed priority order, else `""`. -/
def expectedTokenFromEnv (env : Env) : String :=
  if env.CALLER_REGISTRY_TOKEN ≠ "" then env.CALLER_REGISTRY_TOKEN else
  if env.CALLER_INIT_TOKEN_V2 ≠ "" then env.CALLER_INIT_TOKEN_V2 else
  if env.READ_SECRET ≠ "" then env.READ_SECRET else
  env.INTAKE_SECRET

/-- `INTAKE_WRITE_TOKEN` (line 14): the variable itself, else
`INTAKE_SECRET`, else `""`. -/
def intakeWriteToken (env : Env) : String :=
  if env.INTAKE_WRITE_TOKEN_VAR ≠ "" then env.INTAKE_WRITE_TOKEN_VAR
  else env.INTAKE_SECRET

/-- `passesClientDataAuth` (lines 31–45): Bearer form, then raw token in
`Authorization`, then `X-Auth-Token`, each an exact match against the
expected token. -/
def passesClientDataAuth (req : Request) (env : Env) : Bool :=
  let want := expectedTokenFromEnv env
  if want = "" then false else
  let rawAuth := req.authorization.getD ""
  if strStartsWith rawAuth "Bearer " ∧ strDrop rawAuth 7 = want then true else
  if rawAuth = want then true else
  req.xAuthToken.getD "" = want

/-- `passesWriteAuth` (lines 48–57): Bearer form, then raw token in
`Authorization`. -/
def passesWriteAuth (req : Request) (env : Env) : Bool :=
  let want := intakeWriteToken env
  if want = "" then false else
  let rawAuth := req.authorization.getD ""
  if strStartsWith rawAuth "Bearer " ∧ strDrop rawAuth 7 = want then true else
  rawAuth = want

/-- `const auth = (req, secret) => req.get("Authorization") ===
`Bearer ${secret}`` (line 158), the gate of `/contacts/lookup`:
a missing header (`undefined`) never equals a string. -/
def auth (req : Request) (secret : String) : Bool :=
  req.authorization == some ("Bearer " ++ secret)

/-- The accept condition of `/twilio-init` (lines 199–200):
`auth.startsWith("Bearer ") && auth.slice(7) === READ_SECRET`. -/
def twilioInitAuthOk (req : Request) (env : Env) : Bool :=
  let rawAuth := req.authorization.getD ""
  strStartsWith rawAuth "Bearer " && (strDrop rawAuth 7 == env.READ_SECRET)

/-! ## The client-data lookup handler (src/server.js lines 265–346) -/

/-- Outcome of the Firestore read inside the `try` block: the document
(if the key exists) or a thrown storage error. -/
inductive StorageOutcome where
  | found (doc : Body)
  | absent
  | err
  deriving Repr, DecidableEq

/-- The `memorycaller_status` payload shape (lines 299–313). -/
structure ClientDataPayload where
  isRegistered : Bool
  business : JsValue
  cslb : JsValue
  name : JsValue
  phone_e164 : String
  digits : String
  lastChannel : JsValue
  source : JsValue
  notes : JsValue
  tags : JsValue
  createdAt : String
  updatedAt : String
  error : Bool
  deriving Repr, DecidableEq

/-- The `/elevenlabs/client-data` HTTP outcome. -/
inductive ClientDataResponse where
  | unauthorized
  | emptyOk
  | okPayload (p : ClientDataPayload)
  deriving Repr, DecidableEq

/-- HTTP status of a client-data outcome (401 on auth failure, 200
everywhere else — the catch block also returns 200). -/
def ClientDataResponse.statusOf : ClientDataResponse → Nat
  | .unauthorized => 401
  | .emptyOk => 200
  | .okPayload _ => 200

/-- JS `a ?? b` on an optional property access (`undefined` and `null`
both fall through to the default). -/
def jsCoalesce (o : Option JsValue) (d : JsValue) : JsValue :=
  match o with
  | none => d
  | some .vnull => d
  | some v => v

/-- The `ts` helper (lines 296–297): a Firestore Timestamp renders to its
ISO string, everything else to `""`. -/
def tsISO (o : Option JsValue) : String :=
  match o with
  | some (.vtime iso) => iso
  | _ => ""

/-- `e164.replace(/^\+/, "")`: drop one leading plus. -/
def stripLeadingPlus (e164 : String) : String :=
  match e164.toList with
  | '+' :: rest => String.mk rest
  | _ => e164

/-- The success payload (lines 299–317) for canonical phone `e164` and
looked-up document `c` (`none` when the key is absent). -/
def buildClientPayload (e164 : String) (c : Option Body) : ClientDataPayload where
  isRegistered :=
    match c with
    | none => false
    | some d => match d.get "isRegistered" with
                | none => false
                | some v => truthy v
  business := jsCoalesce (c.bind (·.get "business")) (.vstr "")
  cslb := jsCoalesce (c.bind (·.get "cslb")) (.vstr "")
  name := jsCoalesce (c.bind (·.get "name")) (.vstr "")
  phone_e164 := e164
  digits := stripLeadingPlus e164
  lastChannel := jsCoalesce (c.bind (·.get "lastChannel")) (.vstr "")
  source := jsCoalesce (c.bind (·.get "source")) (.vstr "")
  notes := jsCoalesce (c.bind (·.get "notes")) (.vstr "")
  tags := match c.bind (·.get "tags") with
          | some (.varr xs) => .varr xs
          | _ => .varr []
  createdAt := tsISO (c.bind (·.get "createdAt"))
  updatedAt := tsISO (c.bind (·.get "updatedAt"))
  error := false

/-- The catch-block payload (lines 325–344): every field defaulted and
`error: true`. -/
def clientDataErrorDefault : ClientDataPayload where
  isRegistered := false
  business := .vstr ""
  cslb := .vstr ""
  name := .vstr ""
  phone_e164 := ""
  digits := ""
  lastChannel := .vstr ""
  source := .vstr ""
  notes := .vstr ""
  tags := .varr []
  createdAt := ""
  updatedAt := ""
  error := true

/-- `app.post("/elevenlabs/client-data")` (lines 265–346).  `rawFrom` is
the caller field extracted from the body (`?? null` chain); `storage` is
the outcome of the single Firestore read, whose throw lands in the catch
block. -/
def clientDataHandler (req : Request) (env : Env) (rawFrom : JsValue)
    (storage : StorageOutcome) : ClientDataResponse :=
  if passesClientDataAuth req env = false then .unauthorized else
  match toE164v rawFrom with
  | none => .emptyOk
  | some e164 =>
    match storage with
    | .err => .okPayload clientDataErrorDefault
    | .found doc => .okPayload (buildClientPayload e164 (some doc))
    | .absent => .okPayload (buildClientPayload e164 none)

/-! ## Helper lemmas about the phone normalizer -/

theorem strMk_toList (s : String) : String.mk s.toList = s := by
  cases s
  rfl

theorem toList_strMk (l : List Char) : (String.mk l).toList = l := rfl

theorem space_not_digitOrPlus (c : Char) (h : isJsSpace c = true) :
    isDigitOrPlus c = false := by
  unfold isJsSpace at h
  repeat rw [Bool.or_eq_true] at h
  rcases h with ((((h | h) | h) | h) | h) | h <;>
    (rw [decide_eq_true_eq] at h; subst h; decide)

theorem digitOrPlus_not_space (c : Char) (h : isDigitOrPlus c = true) :
    isJsSpace c = false := by
  by_contra hc
  rw [Bool.not_eq_false] at hc
  rw [space_not_digitOrPlus c hc] at h
  cases h

theorem dropWhile_all_false {p : Char → Bool} :
    ∀ l : List Char, (∀ c ∈ l, p c = false) → l.dropWhile p = l
  | [], _ => rfl
  | c :: t, h => by
    have hc := h c (by simp)
    simp [List.dropWhile_cons, hc]

theorem jsTrim_no_space (l : List Char) (h : ∀ c ∈ l, isJsSpace c = false) :
    jsTrim l = l := by
  unfold jsTrim
  rw [dropWhile_all_false l h,
      dropWhile_all_false l.reverse (fun c hc => h c (List.mem_reverse.mp hc)),
      List.reverse_reverse]

theorem filter_all_true {p : Char → Bool} :
    ∀ l : List Char, (∀ c ∈ l, p c = true) → l.filter p = l
  | [], _ => rfl
  | c :: t, h => by
    have hc := h c (by simp)
    simp only [List.filter_cons, hc, if_pos]
    rw [filter_all_true t (fun d hd => h d (by simp [hd]))]

/-- Every canonical form `toE164` produces starts with `'+'` and consists
of digits and plus signs only. -/
theorem toE164_success_shape (raw : Option String) (o : String)
    (h : toE164 raw = some o) :
    o.toList.head? = some '+' ∧ ∀ c ∈ o.toList, isDigitOrPlus c = true := by
  match raw with
  | none => cases h
  | some r =>
    simp only [toE164] at h
    by_cases hr : r = ""
    · rw [if_pos hr] at h; cases h
    rw [if_neg hr] at h
    by_cases hplus : (jsTrim r.toList).head? = some '+'
    · rw [if_pos hplus] at h
      have ho : o = String.mk ((jsTrim r.toList).filter isDigitOrPlus) :=
        (Option.some.injEq _ _ ▸ h).symm
      subst ho
      rw [toList_strMk]
      constructor
      · match hs : jsTrim r.toList with
        | [] => rw [hs] at hplus; cases hplus
        | c :: t =>
          rw [hs] at hplus
          have hc : c = '+' := by
            simpa [List.head?] using hplus
          subst hc
          simp [List.filter_cons, isDigitOrPlus]
      · intro c hc
        exact (List.mem_filter.mp hc).2
    rw [if_neg hplus] at h
    by_cases h11 : ((jsTrim r.toList).filter Char.isDigit).length = 11 ∧
        ((jsTrim r.toList).filter Char.isDigit).head? = some '1'
    · rw [if_pos h11] at h
      have ho : o = String.mk ('+' :: (jsTrim r.toList).filter Char.isDigit) :=
        (Option.some.injEq _ _ ▸ h).symm
      subst ho
      rw [toList_strMk]
      refine ⟨rfl, ?_⟩
      intro c hc
      rcases List.mem_cons.mp hc with hc | hc
      · subst hc; decide
      · exact Bool.or_eq_true_iff.mpr (Or.inl (List.mem_filter.mp hc).2)
    rw [if_neg h11] at h
    by_cases h10 : ((jsTrim r.toList).filter Char.isDigit).length = 10
    · rw [if_pos h10] at h
      have ho : o = String.mk ('+' :: '1' :: (jsTrim r.toList).filter Char.isDigit) :=
        (Option.some.injEq _ _ ▸ h).symm
      subst ho
      rw [toList_strMk]
      refine ⟨rfl, ?_⟩
      intro c hc
      rcases List.mem_cons.mp hc with hc | hc
      · subst hc; decide
      rcases List.mem_cons.mp hc with hc | hc
      · subst hc; decide
      · exact Bool.or_eq_true_iff.mpr (Or.inl (List.mem_filter.mp hc).2)
    rw [if_neg h10] at h
    by_cases hnil : (jsTrim r.toList).filter Char.isDigit = []
    · rw [if_pos hnil] at h; cases h
    rw [if_neg hnil] at h
    have ho : o = String.mk ('+' :: (jsTrim r.toList).filter Char.isDigit) :=
      (Option.some.injEq _ _ ▸ h).symm
    subst ho
    rw [toList_strMk]
    refine ⟨rfl, ?_⟩
    intro c hc
    rcases List.mem_cons.mp hc with hc | hc
    · subst hc; decide
    · exact Bool.or_eq_true_iff.mpr (Or.inl (List.mem_filter.mp hc).2)

/-- A string that already looks canonical (leading `'+'`, only digits and
plus signs) is a fixed point of `toE164`. -/
theorem toE164_fixed (o : String) (h1 : o.toList.head? = some '+')
    (h2 : ∀ c ∈ o.toList, isDigitOrPlus c = true) :
    toE164 (some o) = some o := by
  have hne : o ≠ "" := by
    intro he
    subst he
    cases h1
  have htrim : jsTrim o.toList = o.toList :=
    jsTrim_no_space _ (fun c hc => digitOrPlus_not_space c (h2 c hc))
  simp only [toE164]
  rw [if_neg hne]
  simp only [htrim, h1, if_pos rfl]
  rw [filter_all_true _ h2, strMk_toList]
  simp

/-! ## Claims C9, C10, C2, C6: the phone normalizer -/

/-- C9: phone normalization is idempotent on its successes — whenever
`toE164` returns a canonical string, applying `toE164` to that returned
string yields the same string again, so re-normalizing a stored key never
changes it. -/
theorem toE164_idempotent (raw : Option String) (o : String)
    (h : toE164 raw = some o) : toE164 (some o) = some o := by
  obtain ⟨h1, h2⟩ := toE164_success_shape raw o h
  exact toE164_fixed o h1 h2

theorem toE164_idempotent_witness :
    toE164 (some "415-272-8956") = some "+14152728956" ∧
    toE164 (some "+14152728956") = some "+14152728956" :=
  ⟨by decide, toE164_idempotent (some "415-272-8956") "+14152728956" (by decide)⟩

/-- The failure condition claim C10 ascribes to `toE164`, written from the
claim's words: the input is empty/absent, or the trimmed input does not
begin with `'+'` and contains no digit characters. -/
def toE164FailCondition (raw : Option String) : Bool :=
  match raw with
  | none => true
  | some s =>
    if s = "" then true
    else if (jsTrim s.toList).head? = some '+' then false
    else (jsTrim s.toList).all fun c => !c.isDigit

theorem filter_isDigit_nil_iff (l : List Char) :
    l.filter Char.isDigit = [] ↔ (l.all fun c => !c.isDigit) = true := by
  rw [List.filter_eq_nil_iff, List.all_eq_true]
  constructor
  · intro h a ha
    simpa using h a ha
  · intro h a ha
    simpa using h a ha

/-- On the non-`'+'` branch, `toE164` fails exactly when the digit run is
empty. -/
theorem toE164_digits_branch (s : String) (hne : s ≠ "")
    (hplus : (jsTrim s.toList).head? ≠ some '+') :
    toE164 (some s) = none ↔ (jsTrim s.toList).filter Char.isDigit = [] := by
  simp only [toE164]
  rw [if_neg hne, if_neg hplus]
  by_cases h11 : ((jsTrim s.toList).filter Char.isDigit).length = 11 ∧
      ((jsTrim s.toList).filter Char.isDigit).head? = some '1'
  · rw [if_pos h11]
    refine ⟨(fun h => nomatch h), fun h => ?_⟩
    rw [h] at h11
    exact absurd h11.1 (by decide)
  rw [if_neg h11]
  by_cases h10 : ((jsTrim s.toList).filter Char.isDigit).length = 10
  · rw [if_pos h10]
    refine ⟨(fun h => nomatch h), fun h => ?_⟩
    rw [h] at h10
    exact absurd h10 (by decide)
  rw [if_neg h10]
  by_cases hnil : (jsTrim s.toList).filter Char.isDigit = []
  · rw [if_pos hnil]
    exact ⟨fun _ => hnil, fun _ => rfl⟩
  · rw [if_neg hnil]
    exact ⟨(fun h => nomatch h), fun h => absurd h hnil⟩

/-- C10: `toE164` fails (returns no canonical form) exactly when the input
is empty/absent, or the trimmed input does not begin with `'+'` and
contains no digit characters; in particular every trimmed input beginning
with `'+'` succeeds, even without digits (the witness records that `"+"`
yields the degenerate key `"+"`). -/
theorem toE164_failure_characterization (raw : Option String) :
    toE164 raw = none ↔ toE164FailCondition raw = true := by
  match raw with
  | none => exact ⟨fun _ => rfl, fun _ => rfl⟩
  | some s =>
    simp only [toE164FailCondition]
    by_cases hs : s = ""
    · rw [if_pos hs]
      subst hs
      exact ⟨fun _ => rfl, fun _ => by decide⟩
    rw [if_neg hs]
    by_cases hplus : (jsTrim s.toList).head? = some '+'
    · rw [if_pos hplus]
      have hx : toE164 (some s)
          = some (String.mk ((jsTrim s.toList).filter isDigitOrPlus)) := by
        simp only [toE164]
        rw [if_neg hs, if_pos hplus]
      rw [hx]
      exact ⟨(fun h => nomatch h), (fun h => nomatch h)⟩
    · rw [if_neg hplus]
      rw [toE164_digits_branch s hs hplus]
      exact filter_isDigit_nil_iff _

theorem toE164_failure_characterization_witness :
    toE164 (some "+") ≠ none :=
  fun h => absurd ((toE164_failure_characterization (some "+")).mp h) (by decide)

/-- C2 counterexample: the claim asserts that a digit run outside the 7–15
range produces no canonical form, but the code has no plausibility bound —
a 6-digit run yields `+123456` and a 16-digit run also succeeds. -/
theorem toE164_plausibility_cex :
    toE164 (some "123456") = some "+123456" ∧
    toE164 (some "123456") ≠ none ∧
    toE164 (some "1234567890123456") = some "+1234567890123456" := by decide

/-- C2 (amended): for every input that does not begin with `'+'` after
trimming and whose digit run is neither exactly 10 long nor exactly 11
starting with `'1'`, `toE164` returns `'+'` followed by the digit run
whenever the run is nonempty — for any nonzero length, with no 7–15
plausibility bound — and fails only when the digit run is empty. -/
theorem toE164_loose_fallback (s : String) (d : List Char)
    (hd : (jsTrim s.toList).filter Char.isDigit = d)
    (hne : s ≠ "")
    (hplus : (jsTrim s.toList).head? ≠ some '+')
    (h11 : ¬(d.length = 11 ∧ d.head? = some '1'))
    (h10 : d.length ≠ 10) :
    (d = [] → toE164 (some s) = none) ∧
    (d ≠ [] → toE164 (some s) = some (String.mk ('+' :: d))) := by
  subst hd
  simp only [toE164]
  rw [if_neg hne, if_neg hplus, if_neg h11, if_neg h10]
  constructor
  · intro h
    rw [if_pos h]
  · intro h
    rw [if_neg h]

theorem toE164_loose_fallback_witness :
    toE164 (some "123-456") = some "+123456" :=
  ((toE164_loose_fallback "123-456" ['1', '2', '3', '4', '5', '6'] (by decide)
      (by decide) (by decide) (by decide) (by decide)).2 (by decide)).trans (by decide)

/-- C6 counterexample: the claim asserts no `'+'` other than the leading
one survives, but on `"+1+2"` the regex `[^\d+]` keeps the interior plus:
the result is `"+1+2"`, whose tail still contains `'+'`. -/
theorem toE164_interior_plus_cex :
    toE164 (some "+1+2") = some "+1+2" ∧
    ("+1+2" : String).toList.tail.contains '+' = true := by decide

/-- C6 (amended): for every input whose trimmed form begins with `'+'`,
`toE164` returns the trimmed input with every character removed except
digits and plus signs — the digit content is unchanged and the result
begins with the leading `'+'`, but every plus sign survives, not only the
leading one. -/
theorem toE164_plus_branch (s : String)
    (hne : s ≠ "") (hplus : (jsTrim s.toList).head? = some '+') :
    toE164 (some s) = some (String.mk ((jsTrim s.toList).filter isDigitOrPlus)) ∧
    ((jsTrim s.toList).filter isDigitOrPlus).filter Char.isDigit
      = (jsTrim s.toList).filter Char.isDigit ∧
    ((jsTrim s.toList).filter isDigitOrPlus).head? = some '+' ∧
    ∀ c ∈ (jsTrim s.toList).filter isDigitOrPlus, isDigitOrPlus c = true := by
  refine ⟨?_, ?_, ?_, ?_⟩
  · simp only [toE164]
    rw [if_neg hne, if_pos hplus]
  · rw [List.filter_filter]
    apply List.filter_congr
    intro a _
    by_cases hc : Char.isDigit a
    · simp [isDigitOrPlus, hc]
    · simp [hc]
  · match hs : jsTrim s.toList with
    | [] => rw [hs] at hplus; cases hplus
    | c :: t =>
      rw [hs] at hplus
      have hc : c = '+' := by simpa [List.head?] using hplus
      subst hc
      simp [List.filter_cons, isDigitOrPlus]
  · intro c hc
    exact (List.mem_filter.mp hc).2

theorem toE164_plus_branch_witness :
    toE164 (some "+1 (415) 272-8956") = some "+14152728956" :=
  ((toE164_plus_branch "+1 (415) 272-8956" (by decide) (by decide)).1).trans (by decide)

/-! ## Helper lemmas about bodies, validation and normalization -/

theorem string_append_left_cancel {p a b : String} (h : p ++ a = p ++ b) :
    a = b := by
  have hd : p.data ++ a.data = p.data ++ b.data := by
    have := congrArg String.data h
    simpa [String.data_append] using this
  have hab := List.append_cancel_left hd
  cases a
  cases b
  exact congrArg String.mk hab

theorem get_setField_ne (b : Body) (key k : String) (v : JsValue) (h : k ≠ key) :
    Body.get (Body.setField b key v) k = Body.get b k := by
  induction b with
  | nil => rfl
  | cons kv rest ih =>
    obtain ⟨k1, v1⟩ := kv
    show Body.get ((if k1 = key then (k1, v) else (k1, v1)) :: Body.setField rest key v) k
        = Body.get ((k1, v1) :: rest) k
    by_cases hk : k1 = key
    · rw [if_pos hk]
      have hn : ¬ k1 = k := fun hh => h (hh.symm.trans hk)
      show (if k1 = k then some v else Body.get (Body.setField rest key v) k)
          = (if k1 = k then some v1 else Body.get rest k)
      rw [if_neg hn, if_neg hn]
      exact ih
    · rw [if_neg hk]
      show (if k1 = k then some v1 else Body.get (Body.setField rest key v) k)
          = (if k1 = k then some v1 else Body.get rest k)
      by_cases hk2 : k1 = k
      · rw [if_pos hk2, if_pos hk2]
      · rw [if_neg hk2, if_neg hk2]
        exact ih

theorem get_map_values (b : Body) (f : JsValue → JsValue) (k : String) :
    Body.get (b.map fun kv => (kv.1, f kv.2)) k = (Body.get b k).map f := by
  induction b with
  | nil => rfl
  | cons kv rest ih =>
    obtain ⟨k1, v1⟩ := kv
    show Body.get ((k1, f v1) :: rest.map fun kv => (kv.1, f kv.2)) k
        = (Body.get ((k1, v1) :: rest) k).map f
    by_cases hk : k1 = k
    · show (if k1 = k then some (f v1) else _) = ((if k1 = k then some v1 else _)).map f
      rw [if_pos hk, if_pos hk]
      rfl
    · show (if k1 = k then some (f v1) else Body.get (rest.map fun kv => (kv.1, f kv.2)) k)
          = ((if k1 = k then some v1 else Body.get rest k)).map f
      rw [if_neg hk, if_neg hk]
      exact ih

theorem get_normalizePhoneStep_ne (b : Body) (k : String) (h : k ≠ "phone") :
    Body.get (normalizePhoneStep b) k = Body.get b k := by
  unfold normalizePhoneStep
  split
  · split
    · split
      · exact get_setField_ne b "phone" k _ h
      · rfl
    · rfl
  · rfl

theorem get_normalizeEmailStep_ne (b : Body) (k : String) (h : k ≠ "email") :
    Body.get (normalizeEmailStep b) k = Body.get b k := by
  unfold normalizeEmailStep
  split
  · split
    · exact get_setField_ne b "email" k _ h
    · rfl
  · rfl

/-- Normalization only rewrites the phone and email fields in place; every
other field is just value-trimmed. -/
theorem get_normalize_other (b : Body) (k : String)
    (h1 : k ≠ "phone") (h2 : k ≠ "email") :
    Body.get (normalizePendingContact b) k = (Body.get b k).map normStr := by
  unfold normalizePendingContact
  rw [get_normalizeEmailStep_ne _ _ h2, get_normalizePhoneStep_ne _ _ h1,
      get_map_values]

/-- The fixed texts of the non-missing validation messages. -/
def otherErrorStrings : List String :=
  ["email must be a valid email address",
   "contactMethod must be one of: text, phone, email",
   "businessType must be one of: LLC, INC., Sole Proprietorship",
   "isRepeat must be a boolean",
   "callCount must be a non-negative integer",
   "participateFeedback must be a boolean",
   "featureInterest must be an array"]

theorem emailErrors_sub (data : Body) (e : String) (h : e ∈ emailErrors data) :
    e ∈ otherErrorStrings := by
  unfold emailErrors at h
  split at h
  · split at h
    · simp only [List.mem_singleton] at h
      subst h
      decide
    · cases h
  · cases h

theorem contactMethodErrors_sub (data : Body) (e : String)
    (h : e ∈ contactMethodErrors data) : e ∈ otherErrorStrings := by
  unfold contactMethodErrors at h
  split at h
  · cases h
  · split at h
    · simp only [List.mem_singleton] at h
      subst h
      decide
    · cases h

theorem businessTypeErrors_sub (data : Body) (e : String)
    (h : e ∈ businessTypeErrors data) : e ∈ otherErrorStrings := by
  unfold businessTypeErrors at h
  split at h
  · cases h
  · split at h
    · simp only [List.mem_singleton] at h
      subst h
      decide
    · cases h

theorem isRepeatErrors_sub (data : Body) (e : String)
    (h : e ∈ isRepeatErrors data) : e ∈ otherErrorStrings := by
  unfold isRepeatErrors at h
  split at h
  · cases h
  · cases h
  · simp only [List.mem_singleton] at h
    subst h
    decide

theorem callCountErrors_sub (data : Body) (e : String)
    (h : e ∈ callCountErrors data) : e ∈ otherErrorStrings := by
  unfold callCountErrors at h
  split at h
  · cases h
  · split at h
    · simp only [List.mem_singleton] at h
      subst h
      decide
    · cases h
  · simp only [List.mem_singleton] at h
    subst h
    decide

theorem participateFeedbackErrors_sub (data : Body) (e : String)
    (h : e ∈ participateFeedbackErrors data) : e ∈ otherErrorStrings := by
  unfold participateFeedbackErrors at h
  split at h
  · cases h
  · cases h
  · simp only [List.mem_singleton] at h
    subst h
    decide

theorem featureInterestErrors_sub (data : Body) (e : String)
    (h : e ∈ featureInterestErrors data) : e ∈ otherErrorStrings := by
  unfold featureInterestErrors at h
  split at h
  · cases h
  · split at h
    · simp only [List.mem_singleton] at h
      subst h
      decide
    · cases h

/-- Every validation message is either a missing-field message or one of
the fixed type/enum/format messages. -/
theorem validate_mem_split (data : Body) (e : String)
    (h : e ∈ validatePendingContact data) :
    e ∈ missingFieldErrors data ∨ e ∈ otherErrorStrings := by
  unfold validatePendingContact at h
  simp only [List.mem_append] at h
  rcases h with ((((((h | h) | h) | h) | h) | h) | h) | h
  · exact Or.inl h
  · exact Or.inr (emailErrors_sub data e h)
  · exact Or.inr (contactMethodErrors_sub data e h)
  · exact Or.inr (businessTypeErrors_sub data e h)
  · exact Or.inr (isRepeatErrors_sub data e h)
  · exact Or.inr (callCountErrors_sub data e h)
  · exact Or.inr (participateFeedbackErrors_sub data e h)
  · exact Or.inr (featureInterestErrors_sub data e h)

theorem missing_msg_not_other :
    ∀ g ∈ requiredFields, ∀ e ∈ otherErrorStrings,
      ("Missing required field: " ++ g) ≠ e := by decide

theorem missingFieldErrors_single (data : Body) (f : String) :
    ∀ l : List String, l.Nodup → f ∈ l →
    (data.get f).isNone = true →
    (∀ g ∈ l, g ≠ f → (data.get g).isSome = true) →
    (l.filterMap fun g =>
        if (data.get g).isNone then some ("Missing required field: " ++ g) else none)
      = ["Missing required field: " ++ f]
  | [], _, hf, _, _ => absurd hf (by simp)
  | a :: t, hnd, hf, hmiss, hrest => by
    rw [List.filterMap_cons]
    by_cases ha : a = f
    · subst ha
      rw [if_pos hmiss]
      have htail : (t.filterMap fun g =>
          if (data.get g).isNone then some ("Missing required field: " ++ g) else none)
          = [] := by
        rw [List.filterMap_eq_nil_iff]
        intro g hg
        have hga : g ≠ a := fun hh => (List.nodup_cons.mp hnd).1 (hh ▸ hg)
        have hsome := hrest g (List.mem_cons_of_mem a hg) hga
        obtain ⟨w, hw⟩ := Option.isSome_iff_exists.mp hsome
        rw [hw]
        rfl
      rw [htail]
    · have hf2 : f ∈ t := by
        rcases List.mem_cons.mp hf with hh | hh
        · exact absurd hh.symm ha
        · exact hh
      have hsome := hrest a (List.mem_cons_self a t) ha
      have hnone : (data.get a).isNone = false := by
        obtain ⟨w, hw⟩ := Option.isSome_iff_exists.mp hsome
        rw [hw]
        rfl
      rw [if_neg (by rw [hnone]; exact Bool.false_ne_true)]
      exact missingFieldErrors_single data f t (List.nodup_cons.mp hnd).2 hf2 hmiss
        (fun g hg hgf => hrest g (List.mem_cons_of_mem a hg) hgf)

/-- Rejection shape of the upsert handler on a validation failure. -/
theorem pendingUpsert_validation_reject (body : Body) (store : Store) (now : String)
    (h : validatePendingContact body ≠ []) :
    pendingUpsert true body store now
      = (.validationFailed (validatePendingContact body), store, []) := by
  unfold pendingUpsert
  rw [if_neg (fun hh => nomatch hh), if_neg h]

/-! ## Claims C4 and C5: validation -/

/-- C4: an authenticated upsert request whose body omits exactly one
required field is rejected with a 400 validation response whose details
list contains the `Missing required field:` entry naming exactly that
field — the missing-field messages consist of precisely that one entry,
and no other field's missing-message occurs anywhere in the details. -/
theorem upsert_missing_field_reported (f : String) (body : Body)
    (store : Store) (now : String)
    (hf : f ∈ requiredFields)
    (hmiss : body.get f = none)
    (hrest : ∀ g ∈ requiredFields, g ≠ f → (body.get g).isSome = true) :
    missingFieldErrors body = ["Missing required field: " ++ f] ∧
    ("Missing required field: " ++ f) ∈ validatePendingContact body ∧
    (∀ g ∈ requiredFields, g ≠ f →
      ("Missing required field: " ++ g) ∉ validatePendingContact body) ∧
    pendingUpsert true body store now
      = (.validationFailed (validatePendingContact body), store, []) := by
  have hnd : requiredFields.Nodup := by decide
  have hsingle : missingFieldErrors body = ["Missing required field: " ++ f] :=
    missingFieldErrors_single body f requiredFields hnd hf
      (by rw [hmiss]; rfl) hrest
  have hmem : ("Missing required field: " ++ f) ∈ validatePendingContact body := by
    unfold validatePendingContact
    refine List.mem_append.mpr (Or.inl ?_)
    refine List.mem_append.mpr (Or.inl ?_)
    refine List.mem_append.mpr (Or.inl ?_)
    refine List.mem_append.mpr (Or.inl ?_)
    refine List.mem_append.mpr (Or.inl ?_)
    refine List.mem_append.mpr (Or.inl ?_)
    refine List.mem_append.mpr (Or.inl ?_)
    rw [hsingle]
    exact List.mem_singleton.mpr rfl
  refine ⟨hsingle, hmem, ?_, ?_⟩
  · intro g hg hgf hcontra
    rcases validate_mem_split body _ hcontra with hin | hin
    · rw [hsingle] at hin
      have heq := List.mem_singleton.mp hin
      exact hgf (string_append_left_cancel heq)
    · exact missing_msg_not_other g hg _ hin rfl
  · exact pendingUpsert_validation_reject body store now
      (fun hnil => by rw [hnil] at hmem; cases hmem)

/-- `exampleBody` with the `name` field deleted. -/
def bodyMissingName : Body :=
  [("phone", .vstr "415-272-8956"), ("company", .vstr "Acme Builders"),
   ("email", .vstr "jo@acme.com"),
   ("location", .vstr "SF"), ("constructionType", .vstr "residential"),
   ("jobTitle", .vstr "PM"), ("companySize", .vstr "10"),
   ("painPoints", .vstr "none"), ("currentTools", .vstr "excel"),
   ("featureInterest", .varr ["scheduling"]), ("participateFeedback", .vbool true),
   ("contactMethod", .vstr "phone"), ("isRepeat", .vbool false),
   ("lastContactDate", .vstr "2025-01-01"), ("createdDate", .vstr "2025-01-01"),
   ("callCount", .vint 0), ("licenseNumber", .vstr "123456"),
   ("businessType", .vstr "LLC"), ("languageUsed", .vstr "en")]

theorem upsert_missing_field_reported_witness :
    ("Missing required field: " ++ "name") ∈ validatePendingContact bodyMissingName :=
  (upsert_missing_field_reported "name" bodyMissingName emptyStore "t"
    (by decide) (by decide) (by decide)).2.1

/-- C5 counterexample: a body whose `contactMethod` and `businessType`
hold the empty string — a value outside each fixed enum set — passes
validation with no errors at all, and the handler accepts the request,
because the `data.contactMethod && ...` / `data.businessType && ...`
guards skip the enum check for falsy values. -/
theorem enum_empty_string_cex :
    validatePendingContact
        (Body.setField (Body.setField exampleBody "contactMethod" (.vstr ""))
          "businessType" (.vstr "")) = [] ∧
    (["text", "phone", "email"] : List String).contains "" = false ∧
    (["LLC", "INC.", "Sole Proprietorship"] : List String).contains "" = false ∧
    (pendingUpsert true
        (Body.setField (Body.setField exampleBody "contactMethod" (.vstr ""))
          "businessType" (.vstr ""))
        emptyStore "t").1 = .ok "+14152728956" false (.vint 0) := by decide

/-- C5 (amended): a truthy `contactMethod` value outside
`{text, phone, email}` or a truthy `businessType` value outside
`{LLC, INC., Sole Proprietorship}` makes validation emit the corresponding
enum error and the handler reject the request with the validation details;
a value inside the respective set yields no enum error and passes through
normalization unchanged (the enum strings carry no whitespace to trim).
A falsy value — in particular the empty string — bypasses the enum check
entirely. -/
theorem enum_enforcement (body : Body) (store : Store) (now : String) (v : JsValue) :
    (body.get "contactMethod" = some v → truthy v = true →
      isEnumMember v ["text", "phone", "email"] = false →
        "contactMethod must be one of: text, phone, email"
            ∈ validatePendingContact body ∧
          pendingUpsert true body store now
            = (.validationFailed (validatePendingContact body), store, [])) ∧
    (body.get "businessType" = some v → truthy v = true →
      isEnumMember v ["LLC", "INC.", "Sole Proprietorship"] = false →
        "businessType must be one of: LLC, INC., Sole Proprietorship"
            ∈ validatePendingContact body ∧
          pendingUpsert true body store now
            = (.validationFailed (validatePendingContact body), store, [])) ∧
    (∀ s, body.get "contactMethod" = some (.vstr s) →
      s ∈ (["text", "phone", "email"] : List String) →
        contactMethodErrors body = [] ∧
        (normalizePendingContact body).get "contactMethod" = some (.vstr s)) ∧
    (∀ s, body.get "businessType" = some (.vstr s) →
      s ∈ (["LLC", "INC.", "Sole Proprietorship"] : List String) →
        businessTypeErrors body = [] ∧
        (normalizePendingContact body).get "businessType" = some (.vstr s)) ∧
    (body.get "contactMethod" = some v → truthy v = false →
      contactMethodErrors body = []) ∧
    (body.get "businessType" = some v → truthy v = false →
      businessTypeErrors body = []) := by
  refine ⟨?_, ?_, ?_, ?_, ?_, ?_⟩
  · intro hget htr hmem
    have herr : contactMethodErrors body
        = ["contactMethod must be one of: text, phone, email"] := by
      unfold contactMethodErrors
      rw [hget]
      show (if truthy v = true ∧ ¬ isEnumMember v ["text", "phone", "email"] = true then
        ["contactMethod must be one of: text, phone, email"] else []) = _
      rw [if_pos ⟨htr, by rw [hmem]; exact Bool.false_ne_true⟩]
    have hmemv : "contactMethod must be one of: text, phone, email"
        ∈ validatePendingContact body := by
      unfold validatePendingContact
      refine List.mem_append.mpr (Or.inl ?_)
      refine List.mem_append.mpr (Or.inl ?_)
      refine List.mem_append.mpr (Or.inl ?_)
      refine List.mem_append.mpr (Or.inl ?_)
      refine List.mem_append.mpr (Or.inl ?_)
      refine List.mem_append.mpr (Or.inr ?_)
      rw [herr]
      exact List.mem_singleton.mpr rfl
    exact ⟨hmemv, pendingUpsert_validation_reject body store now
      (fun hnil => by rw [hnil] at hmemv; cases hmemv)⟩
  · intro hget htr hmem
    have herr : businessTypeErrors body
        = ["businessType must be one of: LLC, INC., Sole Proprietorship"] := by
      unfold businessTypeErrors
      rw [hget]
      show (if truthy v = true ∧
          ¬ isEnumMember v ["LLC", "INC.", "Sole Proprietorship"] = true then
        ["businessType must be one of: LLC, INC., Sole Proprietorship"] else []) = _
      rw [if_pos ⟨htr, by rw [hmem]; exact Bool.false_ne_true⟩]
    have hmemv : "businessType must be one of: LLC, INC., Sole Proprietorship"
        ∈ validatePendingContact body := by
      unfold validatePendingContact
      refine List.mem_append.mpr (Or.inl ?_)
      refine List.mem_append.mpr (Or.inl ?_)
      refine List.mem_append.mpr (Or.inl ?_)
      refine List.mem_append.mpr (Or.inl ?_)
      refine List.mem_append.mpr (Or.inr ?_)
      rw [herr]
      exact List.mem_singleton.mpr rfl
    exact ⟨hmemv, pendingUpsert_validation_reject body store now
      (fun hnil => by rw [hnil] at hmemv; cases hmemv)⟩
  · intro s hget hs
    have hs3 : s = "text" ∨ s = "phone" ∨ s = "email" := by
      simpa using hs
    constructor
    · unfold contactMethodErrors
      rw [hget]
      show (if truthy (.vstr s) = true ∧
          ¬ isEnumMember (.vstr s) ["text", "phone", "email"] = true then
        ["contactMethod must be one of: text, phone, email"] else []) = _
      rw [if_neg (fun hc => hc.2 (by
        show isEnumMember (.vstr s) ["text", "phone", "email"] = true
        unfold isEnumMember
        exact List.elem_iff.mpr hs))]
    · rw [get_normalize_other body "contactMethod" (by decide) (by decide), hget]
      have hn : normStr (.vstr s) = .vstr s := by
        rcases hs3 with hs3 | hs3 | hs3 <;> (subst hs3; rfl)
      show some (normStr (.vstr s)) = some (.vstr s)
      rw [hn]
  · intro s hget hs
    have hs3 : s = "LLC" ∨ s = "INC." ∨ s = "Sole Proprietorship" := by
      simpa using hs
    constructor
    · unfold businessTypeErrors
      rw [hget]
      show (if truthy (.vstr s) = true ∧
          ¬ isEnumMember (.vstr s) ["LLC", "INC.", "Sole Proprietorship"] = true then
        ["businessType must be one of: LLC, INC., Sole Proprietorship"] else []) = _
      rw [if_neg (fun hc => hc.2 (by
        show isEnumMember (.vstr s) ["LLC", "INC.", "Sole Proprietorship"] = true
        unfold isEnumMember
        exact List.elem_iff.mpr hs))]
    · rw [get_normalize_other body "businessType" (by decide) (by decide), hget]
      have hn : normStr (.vstr s) = .vstr s := by
        rcases hs3 with hs3 | hs3 | hs3 <;> (subst hs3; rfl)
      show some (normStr (.vstr s)) = some (.vstr s)
      rw [hn]
  · intro hget htr
    unfold contactMethodErrors
    rw [hget]
    show (if truthy v = true ∧
        ¬ isEnumMember v ["text", "phone", "email"] = true then
      ["contactMethod must be one of: text, phone, email"] else []) = _
    rw [if_neg (fun hc => by rw [htr] at hc; exact Bool.false_ne_true hc.1)]
  · intro hget htr
    unfold businessTypeErrors
    rw [hget]
    show (if truthy v = true ∧
        ¬ isEnumMember v ["LLC", "INC.", "Sole Proprietorship"] = true then
      ["businessType must be one of: LLC, INC., Sole Proprietorship"] else []) = _
    rw [if_neg (fun hc => by rw [htr] at hc; exact Bool.false_ne_true hc.1)]

theorem enum_enforcement_witness :
    "contactMethod must be one of: text, phone, email"
      ∈ validatePendingContact (Body.setField exampleBody "contactMethod" (.vstr "fax")) :=
  ((enum_enforcement (Body.setField exampleBody "contactMethod" (.vstr "fax"))
      emptyStore "t" (.vstr "fax")).1 (by decide) (by decide) (by decide)).1

/-! ## Claims C7 and C1: the upsert write path -/

theorem setStore_get_same (store : Store) (key : String) (p : Payload) :
    setStore store key p key = some p := by
  unfold setStore
  rw [if_pos rfl]

/-- The merged document the upsert writes when the key already holds
`ex` (the in-place mutations of `payload` at lines 457–464). -/
def mergedPayload (key : String) (nd : Body) (ex : Payload) (now : String) : Payload :=
  { mkPayload key nd with
    createdDate := ex.createdDate,
    callCount := jsNumPlusOne (jsOr ex.callCount (.vint 0)),
    isRepeat := .vbool true,
    lastContactDate := .vstr now }

/-- Reduction of the upsert handler when the document already exists. -/
theorem pendingUpsert_update_eq (body : Body) (store : Store) (now key : String)
    (ex : Payload)
    (hval : validatePendingContact body = [])
    (hph : handlerE164 (normalizePendingContact body) = some key)
    (hex : store key = some ex) :
    pendingUpsert true body store now
      = (.ok key true (jsNumPlusOne (jsOr ex.callCount (.vint 0))),
         setStore store key (mergedPayload key (normalizePendingContact body) ex now),
         [.read key, .write key]) := by
  unfold pendingUpsert mergedPayload
  rw [if_neg (fun hh => nomatch hh), if_pos hval]
  simp only [hph, hex]

/-- Reduction of the upsert handler when the key is fresh. -/
theorem pendingUpsert_fresh_eq (body : Body) (store : Store) (now key : String)
    (hval : validatePendingContact body = [])
    (hph : handlerE164 (normalizePendingContact body) = some key)
    (hnone : store key = none) :
    pendingUpsert true body store now
      = (.ok key false (mkPayload key (normalizePendingContact body)).callCount,
         setStore store key (mkPayload key (normalizePendingContact body)),
         [.read key, .write key]) := by
  unfold pendingUpsert
  rw [if_neg (fun hh => nomatch hh), if_pos hval]
  simp only [hph, hnone]

/-- C7: an authenticated upsert request that passes field validation but
whose phone cannot be canonicalized is rejected with the distinct
invalid-phone error before any storage access: no read or write operation
is performed and the store is returned unchanged. -/
theorem upsert_invalid_phone_no_storage (body : Body) (store : Store) (now : String)
    (hval : validatePendingContact body = [])
    (hph : handlerE164 (normalizePendingContact body) = none) :
    pendingUpsert true body store now = (.invalidPhone, store, []) ∧
    (∀ d, UpsertResponse.invalidPhone ≠ UpsertResponse.validationFailed d) := by
  constructor
  · unfold pendingUpsert
    rw [if_neg (fun hh => nomatch hh), if_pos hval]
    simp only [hph]
  · exact fun d h => nomatch h

theorem upsert_invalid_phone_no_storage_witness :
    pendingUpsert true (Body.setField exampleBody "phone" (.vstr "abc")) emptyStore "t"
      = (.invalidPhone, emptyStore, []) :=
  (upsert_invalid_phone_no_storage (Body.setField exampleBody "phone" (.vstr "abc"))
    emptyStore "t" (by decide) (by decide)).1

theorem jsNumPlusOne_jsOr_int (n : Int) :
    jsNumPlusOne (jsOr (.vint n) (.vint 0)) = .vint (n + 1) := by
  by_cases hn : n = 0 <;> simp [truthy, jsOr, jsNumPlusOne, hn]

theorem missing_nil_present (data : Body) (h : missingFieldErrors data = []) :
    ∀ g ∈ requiredFields, (data.get g).isSome = true := by
  intro g hg
  unfold missingFieldErrors at h
  rw [List.filterMap_eq_nil_iff] at h
  have hgo := h g hg
  by_cases hn : (data.get g).isNone = true
  · rw [if_pos hn] at hgo
    cases hgo
  · cases hcase : data.get g
    · rw [hcase] at hn
      exact absurd rfl hn
    · rfl

/-- A body that passes validation carries a non-negative integer
`callCount`. -/
theorem validate_callCount_int (body : Body)
    (hval : validatePendingContact body = []) :
    ∃ m : Int, 0 ≤ m ∧ body.get "callCount" = some (.vint m) := by
  unfold validatePendingContact at hval
  obtain ⟨h7, _⟩ := List.append_eq_nil.mp hval
  obtain ⟨h6, _⟩ := List.append_eq_nil.mp h7
  obtain ⟨h5, hcc⟩ := List.append_eq_nil.mp h6
  obtain ⟨h4, _⟩ := List.append_eq_nil.mp h5
  obtain ⟨h3, _⟩ := List.append_eq_nil.mp h4
  obtain ⟨h2, _⟩ := List.append_eq_nil.mp h3
  obtain ⟨hm, _⟩ := List.append_eq_nil.mp h2
  have hpres := missing_nil_present body hm "callCount" (by decide)
  cases hcase : body.get "callCount" with
  | none =>
    rw [hcase] at hpres
    cases hpres
  | some v =>
    match v with
    | .vint n =>
      by_cases hn : n < 0
      · exfalso
        simp [callCountErrors, hcase, hn] at hcc
      · exact ⟨n, le_of_not_lt hn, rfl⟩
    | .vstr s => exfalso; simp [callCountErrors, hcase] at hcc
    | .vbool b => exfalso; simp [callCountErrors, hcase] at hcc
    | .vnull => exfalso; simp [callCountErrors, hcase] at hcc
    | .varr xs => exfalso; simp [callCountErrors, hcase] at hcc
    | .vtime t => exfalso; simp [callCountErrors, hcase] at hcc

/-- C1: when a document already exists at the canonical phone key, the
payload the upsert writes keeps the stored creation date, sets the call
count to the stored count plus one (an absent/null stored count counting
as 0) and forces the repeat flag true; consequently submitting the same
valid payload twice returns `isUpdate = true` the second time with a call
count exactly one greater than after the first submission, the creation
date being carried over unchanged. -/
theorem upsert_repeat_merge (body : Body) (store : Store) (key now1 now2 : String)
    (hval : validatePendingContact body = [])
    (hph : handlerE164 (normalizePendingContact body) = some key)
    (hstoreOk : ∀ p, store key = some p →
      (∃ n : Int, p.callCount = .vint n) ∨ p.callCount = .vnull) :
    (∀ ex, store key = some ex →
      ∃ p, pendingUpsert true body store now1
          = (.ok key true p.callCount, setStore store key p, [.read key, .write key]) ∧
        p.createdDate = ex.createdDate ∧
        p.isRepeat = .vbool true ∧
        (∀ n : Int, ex.callCount = .vint n → p.callCount = .vint (n + 1)) ∧
        (ex.callCount = .vnull → p.callCount = .vint 1)) ∧
    (∃ (c1 : Int) (u1 : Bool) (p1 : Payload),
      pendingUpsert true body store now1
        = (.ok key u1 (.vint c1), setStore store key p1, [.read key, .write key]) ∧
      p1.callCount = .vint c1 ∧
      ∃ p2, pendingUpsert true body (setStore store key p1) now2
          = (.ok key true (.vint (c1 + 1)),
             setStore (setStore store key p1) key p2, [.read key, .write key]) ∧
        p2.createdDate = p1.createdDate) := by
  constructor
  · intro ex hex
    refine ⟨mergedPayload key (normalizePendingContact body) ex now1,
      pendingUpsert_update_eq body store now1 key ex hval hph hex,
      rfl, rfl, ?_, ?_⟩
    · intro n hn
      show jsNumPlusOne (jsOr ex.callCount (.vint 0)) = .vint (n + 1)
      rw [hn]
      exact jsNumPlusOne_jsOr_int n
    · intro hn
      show jsNumPlusOne (jsOr ex.callCount (.vint 0)) = .vint 1
      rw [hn]
      rfl
  · obtain ⟨m, hm0, hmcc⟩ := validate_callCount_int body hval
    have hnd : (normalizePendingContact body).get "callCount" = some (.vint m) := by
      rw [get_normalize_other body "callCount" (by decide) (by decide), hmcc]
      rfl
    cases hs : store key with
    | none =>
      have hpcc : (mkPayload key (normalizePendingContact body)).callCount
          = .vint m := by
        show ((normalizePendingContact body).get "callCount").getD .vnull = .vint m
        rw [hnd]
        rfl
      refine ⟨m, false, mkPayload key (normalizePendingContact body), ?_, hpcc, ?_⟩
      · have heq := pendingUpsert_fresh_eq body store now1 key hval hph hs
        rw [hpcc] at heq
        exact heq
      · have heq2 := pendingUpsert_update_eq body
          (setStore store key (mkPayload key (normalizePendingContact body))) now2 key
          (mkPayload key (normalizePendingContact body)) hval hph
          (setStore_get_same store key _)
        rw [hpcc, jsNumPlusOne_jsOr_int m] at heq2
        exact ⟨mergedPayload key (normalizePendingContact body)
          (mkPayload key (normalizePendingContact body)) now2, heq2, rfl⟩
    | some ex =>
      rcases hstoreOk ex hs with ⟨n, hn⟩ | hn
      · have hcc1 : jsNumPlusOne (jsOr ex.callCount (.vint 0)) = .vint (n + 1) := by
          rw [hn]
          exact jsNumPlusOne_jsOr_int n
        have heq := pendingUpsert_update_eq body store now1 key ex hval hph hs
        rw [hcc1] at heq
        refine ⟨n + 1, true,
          mergedPayload key (normalizePendingContact body) ex now1, heq, hcc1, ?_⟩
        have heq2 := pendingUpsert_update_eq body
          (setStore store key (mergedPayload key (normalizePendingContact body) ex now1))
          now2 key (mergedPayload key (normalizePendingContact body) ex now1)
          hval hph (setStore_get_same store key _)
        have hcc2 : jsNumPlusOne (jsOr
            (mergedPayload key (normalizePendingContact body) ex now1).callCount
            (.vint 0)) = .vint (n + 1 + 1) := by
          show jsNumPlusOne (jsOr (jsNumPlusOne (jsOr ex.callCount (.vint 0)))
            (.vint 0)) = _
          rw [hcc1]
          exact jsNumPlusOne_jsOr_int (n + 1)
        rw [hcc2] at heq2
        exact ⟨mergedPayload key (normalizePendingContact body)
          (mergedPayload key (normalizePendingContact body) ex now1) now2, heq2, rfl⟩
      · have hcc1 : jsNumPlusOne (jsOr ex.callCount (.vint 0)) = .vint 1 := by
          rw [hn]
          rfl
        have heq := pendingUpsert_update_eq body store now1 key ex hval hph hs
        rw [hcc1] at heq
        refine ⟨1, true,
          mergedPayload key (normalizePendingContact body) ex now1, heq, hcc1, ?_⟩
        have heq2 := pendingUpsert_update_eq body
          (setStore store key (mergedPayload key (normalizePendingContact body) ex now1))
          now2 key (mergedPayload key (normalizePendingContact body) ex now1)
          hval hph (setStore_get_same store key _)
        have hcc2 : jsNumPlusOne (jsOr
            (mergedPayload key (normalizePendingContact body) ex now1).callCount
            (.vint 0)) = .vint (1 + 1) := by
          show jsNumPlusOne (jsOr (jsNumPlusOne (jsOr ex.callCount (.vint 0)))
            (.vint 0)) = _
          rw [hcc1]
          exact jsNumPlusOne_jsOr_int 1
        rw [hcc2] at heq2
        exact ⟨mergedPayload key (normalizePendingContact body)
          (mergedPayload key (normalizePendingContact body) ex now1) now2, heq2, rfl⟩

theorem upsert_repeat_merge_witness :
    ∃ (c1 : Int) (u1 : Bool) (p1 : Payload),
      pendingUpsert true exampleBody emptyStore "t1"
        = (.ok "+14152728956" u1 (.vint c1),
           setStore emptyStore "+14152728956" p1,
           [.read "+14152728956", .write "+14152728956"]) ∧
      p1.callCount = .vint c1 ∧
      ∃ p2, pendingUpsert true exampleBody
            (setStore emptyStore "+14152728956" p1) "t2"
          = (.ok "+14152728956" true (.vint (c1 + 1)),
             setStore (setStore emptyStore "+14152728956" p1) "+14152728956" p2,
             [.read "+14152728956", .write "+14152728956"]) ∧
        p2.createdDate = p1.createdDate :=
  (upsert_repeat_merge exampleBody emptyStore "+14152728956" "t1" "t2"
    (by decide) (by decide) (fun p h => nomatch h)).2

/-! ## Claims C3 and C8: read path resilience and authentication -/

/-- An environment with only `READ_SECRET` configured. -/
def envExample : Env :=
  { CALLER_REGISTRY_TOKEN := "", CALLER_INIT_TOKEN_V2 := "",
    READ_SECRET := "s3cr3t", INTAKE_SECRET := "", INTAKE_WRITE_TOKEN_VAR := "" }

/-- C3: for every request that passes authentication on the client-data
lookup, a storage read that throws still yields HTTP 200 carrying the
fixed payload shape with the error flag true and every profile field
defaulted (empty strings, empty tags array, booleans false); once
authentication passes no response other than 200 is ever produced, in
particular never a 5xx. -/
theorem clientData_storage_error_returns_200 (req : Request) (env : Env)
    (rawFrom : JsValue)
    (hauth : passesClientDataAuth req env = true) :
    (toE164v rawFrom ≠ none →
      clientDataHandler req env rawFrom .err = .okPayload clientDataErrorDefault) ∧
    clientDataErrorDefault.error = true ∧
    clientDataErrorDefault.isRegistered = false ∧
    clientDataErrorDefault.business = .vstr "" ∧
    clientDataErrorDefault.name = .vstr "" ∧
    clientDataErrorDefault.tags = .varr [] ∧
    (∀ storage, (clientDataHandler req env rawFrom storage).statusOf = 200) := by
  refine ⟨?_, rfl, rfl, rfl, rfl, rfl, ?_⟩
  · intro hne
    unfold clientDataHandler
    rw [if_neg (by rw [hauth]; exact fun hh => nomatch hh)]
    cases hv : toE164v rawFrom with
    | none => exact absurd hv hne
    | some e => simp only [hv]
  · intro storage
    unfold clientDataHandler
    rw [if_neg (by rw [hauth]; exact fun hh => nomatch hh)]
    cases hv : toE164v rawFrom with
    | none => simp only [hv]; rfl
    | some e =>
      simp only [hv]
      cases storage <;> rfl

theorem clientData_storage_error_returns_200_witness :
    clientDataHandler ⟨some "Bearer s3cr3t", none⟩ envExample
        (.vstr "+14155550000") .err = .okPayload clientDataErrorDefault :=
  (clientData_storage_error_returns_200 ⟨some "Bearer s3cr3t", none⟩ envExample
    (.vstr "+14155550000") (by decide)).1 (by decide)

theorem toList_append (a b : String) : (a ++ b).toList = a.toList ++ b.toList := by
  cases a
  cases b
  rfl

theorem isPrefixOf_append (l t : List Char) : l.isPrefixOf (l ++ t) = true := by
  induction l with
  | nil => simp [List.isPrefixOf]
  | cons c cs ih => simp [List.isPrefixOf, ih]

theorem strStartsWith_self_append (p s : String) :
    strStartsWith (p ++ s) p = true := by
  unfold strStartsWith
  rw [toList_append]
  exact isPrefixOf_append _ _

theorem strDrop_bearer (s : String) : strDrop ("Bearer " ++ s) 7 = s := by
  unfold strDrop
  rw [toList_append]
  show String.mk (List.drop ("Bearer ".toList).length ("Bearer ".toList ++ s.toList)) = s
  rw [List.drop_left, strMk_toList]

/-- C8 counterexample: with `READ_SECRET = "s3cr3t"` configured, the
`/contacts/lookup` gate `auth` accepts the exact Bearer header but rejects
the same correct token presented raw in `Authorization` and presented via
`X-Auth-Token`; `/twilio-init` rejects the raw form too.  These are
authenticated endpoints with no fallback header form, contradicting the
claim's "every authenticated endpoint"; the client-data gate does accept
the raw fallback. -/
theorem lookup_auth_no_fallback_cex :
    auth ⟨some "Bearer s3cr3t", none⟩ "s3cr3t" = true ∧
    auth ⟨some "s3cr3t", none⟩ "s3cr3t" = false ∧
    auth ⟨none, some "s3cr3t"⟩ "s3cr3t" = false ∧
    twilioInitAuthOk ⟨some "s3cr3t", none⟩ envExample = false ∧
    passesClientDataAuth ⟨some "s3cr3t", none⟩ envExample = true := by decide

/-- C8 (amended): the client-data webhook accepts the expected token via
the Bearer form and two fallback forms (raw `Authorization`,
`X-Auth-Token`), and the upsert endpoint via the Bearer form and the raw
`Authorization` fallback, each compared as an exact string match against
the configured secret — for the client-data route the first non-empty
secret among `CALLER_REGISTRY_TOKEN`, `CALLER_INIT_TOKEN_V2`,
`READ_SECRET`, `INTAKE_SECRET` in that fixed priority order.  But the
`/contacts/lookup` gate compares only the exact `Bearer <secret>` header:
it admits no fallback form, so the claim fails for that authenticated
endpoint. -/
theorem auth_forms (env : Env) (req : Request) :
    (expectedTokenFromEnv env ≠ "" →
      passesClientDataAuth ⟨some ("Bearer " ++ expectedTokenFromEnv env), none⟩ env
          = true ∧
      passesClientDataAuth ⟨some (expectedTokenFromEnv env), none⟩ env = true ∧
      passesClientDataAuth ⟨none, some (expectedTokenFromEnv env)⟩ env = true) ∧
    (intakeWriteToken env ≠ "" →
      passesWriteAuth ⟨some ("Bearer " ++ intakeWriteToken env), none⟩ env = true ∧
      passesWriteAuth ⟨some (intakeWriteToken env), none⟩ env = true) ∧
    (auth req env.READ_SECRET = true ↔
      req.authorization = some ("Bearer " ++ env.READ_SECRET)) ∧
    (env.CALLER_REGISTRY_TOKEN ≠ "" →
      expectedTokenFromEnv env = env.CALLER_REGISTRY_TOKEN) ∧
    (env.CALLER_REGISTRY_TOKEN = "" → env.CALLER_INIT_TOKEN_V2 ≠ "" →
      expectedTokenFromEnv env = env.CALLER_INIT_TOKEN_V2) ∧
    (env.CALLER_REGISTRY_TOKEN = "" → env.CALLER_INIT_TOKEN_V2 = "" →
      env.READ_SECRET ≠ "" → expectedTokenFromEnv env = env.READ_SECRET) ∧
    (env.CALLER_REGISTRY_TOKEN = "" → env.CALLER_INIT_TOKEN_V2 = "" →
      env.READ_SECRET = "" → expectedTokenFromEnv env = env.INTAKE_SECRET) := by
  refine ⟨?_, ?_, ?_, ?_, ?_, ?_, ?_⟩
  · intro hw
    refine ⟨?_, ?_, ?_⟩
    · simp only [passesClientDataAuth, Option.getD_some]
      rw [if_neg hw]
      rw [if_pos ⟨strStartsWith_self_append "Bearer " (expectedTokenFromEnv env),
        strDrop_bearer (expectedTokenFromEnv env)⟩]
    · simp only [passesClientDataAuth, Option.getD_some]
      rw [if_neg hw]
      by_cases hc : strStartsWith (expectedTokenFromEnv env) "Bearer " = true ∧
          strDrop (expectedTokenFromEnv env) 7 = expectedTokenFromEnv env
      · rw [if_pos hc]
      · rw [if_neg hc, if_pos trivial]
    · simp only [passesClientDataAuth, Option.getD_some, Option.getD_none]
      rw [if_neg hw]
      rw [if_neg (fun hc => by exact nomatch hc.1)]
      rw [if_neg (fun hc => hw hc.symm)]
      exact decide_eq_true trivial
  · intro hw
    refine ⟨?_, ?_⟩
    · simp only [passesWriteAuth, Option.getD_some]
      rw [if_neg hw]
      rw [if_pos ⟨strStartsWith_self_append "Bearer " (intakeWriteToken env),
        strDrop_bearer (intakeWriteToken env)⟩]
    · simp only [passesWriteAuth, Option.getD_some]
      rw [if_neg hw]
      by_cases hc : strStartsWith (intakeWriteToken env) "Bearer " = true ∧
          strDrop (intakeWriteToken env) 7 = intakeWriteToken env
      · rw [if_pos hc]
      · rw [if_neg hc]
        exact decide_eq_true trivial
  · unfold auth
    exact beq_iff_eq
  · intro h1
    unfold expectedTokenFromEnv
    rw [if_pos h1]
  · intro h1 h2
    unfold expectedTokenFromEnv
    rw [if_neg (fun hh => hh h1), if_pos h2]
  · intro h1 h2 h3
    unfold expectedTokenFromEnv
    rw [if_neg (fun hh => hh h1), if_neg (fun hh => hh h2), if_pos h3]
  · intro h1 h2 h3
    unfold expectedTokenFromEnv
    rw [if_neg (fun hh => hh h1), if_neg (fun hh => hh h2), if_neg (fun hh => hh h3)]

theorem auth_forms_witness :
    passesClientDataAuth ⟨some (expectedTokenFromEnv envExample), none⟩ envExample
      = true :=
  ((auth_forms envExample ⟨none, none⟩).1 (by decide)).2.1

end ToolCenter
